import Mathlib

/-!
Verification of the StormHack repository (mobile client + SQL schema for an
evidence-weighted ingredient/condition interaction engine).

The development shallowly embeds:
* the client helpers of app/wellness.tsx and the pair screen
  (parseDiseases, apiFilter, rowsFromResult in its two variants, and the
  non-2xx response handling of onSearch);
* the relational constraints of db/migration/V2__create_tables.sql
  (both variants of the interaction table, the source table, evidence_level);
* the condition-guide resolver, which is backend code absent from the
  provided sources and is therefore modelled from the specification.
-/

namespace StormHack

/-! ## JS string helpers

String primitives are modelled over the character list of a String so that
every definition evaluates by kernel reduction on concrete inputs. -/

/-- JS string falsiness: the empty string is falsy. -/
def jsEmpty (s : String) : Bool := s.data.isEmpty

/-- Embeds the JS expression a || b for an optional string a: a string is
falsy when it is empty or absent. -/
def jsOrStr (a : Option String) (b : String) : String :=
  match a with
  | some s => if jsEmpty s then b else s
  | none => b

/-- Embeds String.prototype.trim: drop whitespace from both ends. -/
def jsTrim (s : String) : String :=
  ⟨((s.data.dropWhile Char.isWhitespace).reverse.dropWhile
      Char.isWhitespace).reverse⟩

/-- Case-insensitive key used to model toLowerCase and localeCompare with
sensitivity base (ASCII case folding). -/
def lowerKey (s : String) : List Char := s.data.map Char.toLower

/-- Case-insensitive key of a display name, ordered by the lexicographic
order on character lists. -/
def nameKey (s : String) : List Char := lowerKey s

/-- Three-way case-insensitive string comparison, the embedding of
a.localeCompare(b, undefined, sensitivity base). -/
def strCmpCI (a b : String) : Int :=
  if nameKey a < nameKey b then -1
  else if nameKey b < nameKey a then 1
  else 0

/-! ## Generic comparator-based sorting, the model of Array.prototype.sort -/

/-- Insert x into a list sorted by the comparator cmp: x goes in front of the
first element y with cmp x y < 0. -/
def insertCmp (cmp : α → α → Int) (x : α) : List α → List α
  | [] => [x]
  | y :: ys => if cmp x y < 0 then x :: y :: ys else y :: insertCmp cmp x ys

/-- Comparator sort (insertion sort); models Array.prototype.sort with a
consistent comparator: the output is a permutation of the input, ordered so
that cmp never returns a positive value on an earlier/later pair. -/
def sortCmp (cmp : α → α → Int) : List α → List α
  | [] => []
  | x :: xs => insertCmp cmp x (sortCmp cmp xs)

/-- The client Filter union type: all | avoid | benefit. -/
inductive Filter
  | all
  | avoid
  | benefit
deriving DecidableEq

/-- SourceRef from the client: label plus nullable url. -/
structure SourceRef where
  label : String
  url : Option String
deriving DecidableEq

/-- DiseaseItem from app/wellness.tsx: optional food/ingredient names, a
reason, an optional numeric severity, optional affectedDiseases and sources.
The pair screen CompatibilityItem is the same shape with food mandatory. -/
structure DiseaseItem where
  food : Option String
  ingredient : Option String
  reason : String
  severity : Option Int
  affectedDiseases : Option (List String)
  sources : Option (List SourceRef)
deriving DecidableEq

/-- DiseaseGuide response envelope: diseases plus two optional buckets. -/
structure DiseaseGuide where
  diseases : List String
  avoid : Option (List DiseaseItem)
  beneficial : Option (List DiseaseItem)
deriving DecidableEq

/-- Row kind tag used by the result renderer. -/
inductive Kind
  | good
  | bad
deriving DecidableEq

/-- Row = DiseaseItem plus the tags added by rowsFromResult. -/
structure Row extends DiseaseItem where
  kind : Kind
  name : String
deriving DecidableEq

/-- nameOf from rowsFromResult: (x.food || x.ingredient || "").trim(). -/
def nameOf (x : DiseaseItem) : String :=
  jsTrim (jsOrStr x.food (jsOrStr x.ingredient ""))

/-- Severity read with the JS default: x.severity ?? 0. -/
def sevOf (x : DiseaseItem) : Int := x.severity.getD 0

/-- Tag an item into a Row, as the map step of rowsFromResult does. -/
def toRow (k : Kind) (x : DiseaseItem) : Row :=
  { toDiseaseItem := x, kind := k, name := nameOf x }

/-! ## parseDiseases (app/wellness.tsx lines 117-122 and 827-839) -/

/-- A character matched by the separator class of the regex used by
parseDiseases: a comma or whitespace. -/
def sepChar (c : Char) : Bool := c == ',' || c.isWhitespace

/-- Split a character list at every separator character, keeping empty
pieces. Splitting at every separator and then dropping empty pieces is
equivalent to the JS split on the one-or-more regex followed by
filter(Boolean), which parseDiseases performs. -/
def splitChars (p : Char → Bool) : List Char → List (List Char)
  | [] => [[]]
  | c :: cs =>
      if p c then [] :: splitChars p cs
      else
        match splitChars p cs with
        | [] => [[c]]
        | t :: ts => (c :: t) :: ts

/-- The parts pipeline of parseDiseases:
input.split on commas/whitespace, map trim, filter(Boolean). -/
def parseParts (input : String) : List String :=
  ((splitChars sepChar input.data).map (fun cs => jsTrim ⟨cs⟩)).filter
    (fun s => !jsEmpty s)

/-- The dedupe loop of parseDiseases: walk the parts, keep a part when its
lowercase key was not seen before, recording keys in seen and results in acc
(accumulated in reverse). -/
def dedupeLoop : List (List Char) → List String → List String → List String
  | _, acc, [] => acc.reverse
  | seen, acc, p :: ps =>
      let k := lowerKey p
      if seen.contains k then dedupeLoop seen acc ps
      else dedupeLoop (k :: seen) (p :: acc) ps

/-- parseDiseases from app/wellness.tsx: split on commas or whitespace,
trim, drop empties, then case-insensitively de-duplicate keeping first
occurrences in order. -/
def parseDiseases (input : String) : List String :=
  dedupeLoop [] [] (parseParts input)

/-- Specification-side de-duplication: keep each token and drop every later
token with the same case-insensitive key; first occurrences survive in their
original order. -/
def keepFirstsCI : List String → List String
  | [] => []
  | t :: ts =>
      t :: keepFirstsCI (ts.filter (fun u => !(lowerKey u == lowerKey t)))
termination_by l => l.length
decreasing_by
  simp only [List.length_cons]
  exact Nat.lt_succ_of_le (List.length_filter_le _ _)

/-- The bySeverity comparator of app/wellness.tsx lines 1145-1146 and the
pair screen: (b.severity ?? 0) - (a.severity ?? 0) || localeCompare of the
names with sensitivity base. -/
def bySeverity (a b : DiseaseItem) : Int :=
  let d := sevOf b - sevOf a
  if d = 0 then strCmpCI (nameOf a) (nameOf b) else d

/-- The byName comparator of app/wellness.tsx line 461 (recipe variant):
names only, case-insensitive, severity ignored. -/
def byName (a b : DiseaseItem) : Int :=
  strCmpCI (nameOf a) (nameOf b)

/-- rowsFromResult, severity-sorting variant (app/wellness.tsx lines
1140-1154; same algorithm as the pair screen rowsFromResult): tag the two
buckets, sort each by severity descending then name ascending, then dispatch
on the filter (benefit keeps goods, avoid keeps bads, anything else returns
goods followed by bads). -/
def rowsFromResult (res : DiseaseGuide) (filter : Option Filter) : List Row :=
  let goods := (res.beneficial.getD []).map (toRow .good)
  let bads := (res.avoid.getD []).map (toRow .bad)
  let goods := sortCmp (fun a b => bySeverity a.toDiseaseItem b.toDiseaseItem) goods
  let bads := sortCmp (fun a b => bySeverity a.toDiseaseItem b.toDiseaseItem) bads
  match filter with
  | some .benefit => goods
  | some .avoid => bads
  | _ => goods ++ bads

/-- rowsFromResult, name-only variant (app/wellness.tsx lines 457-466, the
recipe-enabled screen): identical dispatch but each bucket is sorted by the
case-insensitive name alone. -/
def rowsFromResultNameOnly (res : DiseaseGuide) (filter : Option Filter) :
    List Row :=
  let goods := (res.beneficial.getD []).map (toRow .good)
  let bads := (res.avoid.getD []).map (toRow .bad)
  let goods := sortCmp (fun a b => byName a.toDiseaseItem b.toDiseaseItem) goods
  let bads := sortCmp (fun a b => byName a.toDiseaseItem b.toDiseaseItem) bads
  match filter with
  | some .benefit => goods
  | some .avoid => bads
  | _ => goods ++ bads

/-- The bucket ordering the spec requires: evidence score (severity)
descending, ties by case-insensitive display name ascending. -/
def rowKeyLe (a b : Row) : Prop :=
  sevOf b.toDiseaseItem < sevOf a.toDiseaseItem ∨
    (sevOf a.toDiseaseItem = sevOf b.toDiseaseItem ∧
      nameKey (nameOf a.toDiseaseItem) ≤ nameKey (nameOf b.toDiseaseItem))

instance (a b : Row) : Decidable (rowKeyLe a b) := by
  unfold rowKeyLe
  infer_instance

/-- Wire string of a client Filter value. -/
def filterStr : Filter → String
  | .all => "all"
  | .avoid => "avoid"
  | .benefit => "benefit"

/-- apiFilter: f === benefit ? beneficial : (f ?? all), at the wire-string
level. The useMemo variant (filter || all) coincides because no filter value
is the empty string. -/
def apiFilter (f : Option Filter) : String :=
  if f = some .benefit then "beneficial" else (f.map filterStr).getD "all"

/-- Abstract view of a fetch response as onSearch consumes it. errBody
models the json() call on a non-2xx body: none when the body is absent or
unparseable (json() throws), some m when it parses with optional message
field m. -/
structure FetchResponse where
  ok : Bool
  status : Nat
  errBody : Option (Option String)
  guide : Option DiseaseGuide

/-- The message built by the non-2xx branch of onSearch:
msg || Request failed (status). Because the empty string is falsy in JS, a
present-but-empty message also falls back to the generic message. -/
def failureMessage (res : FetchResponse) : String :=
  let msg : Option String :=
    match res.errBody with
    | none => none
    | some m => m
  jsOrStr msg ("Request failed (" ++ toString res.status ++ ")")

/-- The (result, errorMsg) client state after onSearch processes a response:
on ok the parsed guide is stored and the error cleared; on non-2xx the
computed message is thrown, and the catch stores it (it is never empty, so
the catch-side fallback never fires) and clears the result. -/
def onSearchOutcome (res : FetchResponse) :
    Option DiseaseGuide × Option String :=
  if res.ok then (res.guide, none)
  else (none, some (failureMessage res))

/-- The interaction_entity_type ENUM. -/
inductive EntityType
  | INGREDIENT
  | CONDITION
deriving DecidableEq

/-- A row of the first interaction table variant (V2 lines 51-63). -/
structure InteractionRowV1 where
  a_type : EntityType
  a_id : Int
  b_type : EntityType
  b_id : Int
  itype : Option String
  rationale : Option String
deriving DecidableEq

/-- A row of the second interaction table variant (V2 lines 157-169), which
carries the evidence column. -/
structure InteractionRowV2 where
  a_type : EntityType
  a_id : Int
  b_type : EntityType
  b_id : Int
  itype : Option String
  rationale : Option String
  evidence : Int
deriving DecidableEq

/-- The tuple constrained by uq_interaction. -/
def interactionKeyV1 (r : InteractionRowV1) :
    EntityType × Int × EntityType × Int × Option String :=
  (r.a_type, r.a_id, r.b_type, r.b_id, r.itype)

/-- The same tuple read off a row of the second variant. -/
def interactionKeyV2 (r : InteractionRowV2) :
    EntityType × Int × EntityType × Int × Option String :=
  (r.a_type, r.a_id, r.b_type, r.b_id, r.itype)

/-- The chk_interaction_itype CHECK: itype IN (avoid, benefit). A SQL CHECK
passes on NULL. -/
def itypeCheck (t : Option String) : Bool :=
  match t with
  | none => true
  | some s => s == "avoid" || s == "benefit"

/-- Whether two rows violate uq_interaction. Postgres UNIQUE never treats
NULLs as equal, so rows with NULL itype cannot conflict. -/
def uqConflict (r s : InteractionRowV1) : Bool :=
  r.a_type == s.a_type && r.a_id == s.a_id && r.b_type == s.b_type &&
    r.b_id == s.b_id &&
    (match r.itype, s.itype with
     | some x, some y => x == y
     | _, _ => false)

/-- No pair of rows violates uq_interaction. -/
def noUqConflicts : List InteractionRowV1 → Bool
  | [] => true
  | r :: rs => rs.all (fun s => !uqConflict r s) && noUqConflicts rs

/-- A state of the first interaction table variant is admissible when every
row passes the itype check and no pair violates uq_interaction. -/
def interactionTableOkV1 (t : List InteractionRowV1) : Bool :=
  t.all (fun r => itypeCheck r.itype) && noUqConflicts t

/-- A row of the evidence_level lookup table. -/
structure EvidenceLevelRow where
  score : Int
  label : String
deriving DecidableEq

/-- The seed of evidence_level (V2 lines 98-105). -/
def evidenceLevelSeed : List EvidenceLevelRow :=
  [⟨5, "Guideline"⟩,
   ⟨4, "Strong (Systematic Review / RCT)"⟩,
   ⟨3, "Moderate (Observational)"⟩,
   ⟨2, "Limited (Expert Opinion)"⟩,
   ⟨1, "Minimal / Unspecified"⟩,
   ⟨0, "No Source"⟩]

/-- A state of the second interaction table variant is admissible when every
row passes chk_interaction_evidence (evidence BETWEEN 0 AND 5) and the
foreign key into evidence_level(score). This variant declares no unique
constraint on (a_type, a_id, b_type, b_id, itype) and no itype check. -/
def interactionTableOkV2 (levels : List EvidenceLevelRow)
    (t : List InteractionRowV2) : Bool :=
  t.all (fun r =>
    (decide (0 ≤ r.evidence) && decide (r.evidence ≤ 5)) &&
      levels.any (fun lv => lv.score == r.evidence))

/-- An interaction row duplicated verbatim; admissible under the second
variant because that variant has no uniqueness constraint. -/
def dupInteraction : InteractionRowV2 :=
  { a_type := .CONDITION, a_id := 1, b_type := .INGREDIENT, b_id := 2,
    itype := some "avoid", rationale := none, evidence := 3 }

/-- A row of the source table (V2 lines 68-78 and 174-184). -/
structure SourceRow where
  label : String
  url : Option String
  publisher : Option String
  year : Option Int
deriving DecidableEq

/-- Whether two source rows are compatible with uq_source_url: a conflict
needs both urls non-null and equal; NULL urls never conflict under a
Postgres UNIQUE constraint. -/
def urlNoConflict (r s : SourceRow) : Bool :=
  match r.url, s.url with
  | some u, some v => !(u == v)
  | _, _ => true

/-- No pair of rows violates uq_source_url. -/
def urlsUniq : List SourceRow → Bool
  | [] => true
  | r :: rs => rs.all (fun s => urlNoConflict r s) && urlsUniq rs

/-- The chk_source_year CHECK: year IS NULL OR year BETWEEN 1000 AND 9999. -/
def yearCheck (y : Option Int) : Bool :=
  match y with
  | none => true
  | some n => decide (1000 ≤ n) && decide (n ≤ 9999)

/-- A state of the source table is admissible when uq_source_url and
chk_source_year hold. -/
def sourceTableOk (t : List SourceRow) : Bool :=
  urlsUniq t && t.all (fun r => yearCheck r.year)

/-- Two citation rows with NULL urls, admissible together because UNIQUE
ignores NULLs. -/
def twoNullUrlSources : List SourceRow :=
  [⟨"WHO guideline", none, some "WHO", some 2020⟩,
   ⟨"CDC page", none, some "CDC", none⟩]

/-- Modelled from the spec: a canonical condition of the Entity Catalog,
with display name and aliases; the backend catalog tables exist in the
schema but the resolver code is missing from the sources. -/
structure CondEntity where
  id : Nat
  name : String
  aliases : List String
deriving DecidableEq

/-- Modelled from the spec: a canonical ingredient of the Entity Catalog. -/
structure IngEntity where
  id : Nat
  name : String
deriving DecidableEq

/-- Interaction label of an edge. -/
inductive IType
  | avoid
  | benefit
deriving DecidableEq

/-- Modelled from the spec: an ingredient-condition edge of the Interaction
Store with its label and evidence score. -/
structure GEdge where
  condId : Nat
  ingId : Nat
  itype : IType
  evidence : Int
deriving DecidableEq

/-- Modelled from the spec: the read-only store the guide resolver reads. -/
structure GStore where
  conds : List CondEntity
  ings : List IngEntity
  edges : List GEdge

/-- Case-insensitive text match used by alias lookup. -/
def eqCI (a b : String) : Bool := lowerKey a == lowerKey b

/-- Modelled from the spec: Entity Catalog resolution, exact
case-insensitive match on the canonical name or on any alias. -/
def resolveCondition (st : GStore) (text : String) : Option CondEntity :=
  st.conds.find? (fun c =>
    eqCI c.name text || c.aliases.any (fun al => eqCI al text))

/-- Modelled from the spec: every token resolves independently; unresolved
tokens are dropped from the aggregation. -/
def resolvedConditions (st : GStore) (texts : List String) : List CondEntity :=
  texts.filterMap (resolveCondition st)

/-- Whether the store holds an edge with the given label between the
condition and the ingredient. -/
def hasEdge (st : GStore) (c : CondEntity) (i : IngEntity) (t : IType) : Bool :=
  st.edges.any (fun e => e.condId == c.id && e.ingId == i.id && e.itype == t)

/-- The resolved conditions flagging the ingredient with the given label. -/
def condsWith (st : GStore) (resolved : List CondEntity) (i : IngEntity)
    (t : IType) : List CondEntity :=
  resolved.filter (fun c => hasEdge st c i t)

/-- The strongest evidence among the contributing edges, surfaced as the row
severity; the spec fixes the ordering key but not the aggregation of several
contributing scores, so the maximum is used. -/
def maxEvidence (st : GStore) (resolved : List CondEntity) (i : IngEntity)
    (t : IType) : Int :=
  (st.edges.filter (fun e =>
    e.ingId == i.id && e.itype == t &&
      resolved.any (fun c => c.id == e.condId))).foldr
    (fun e m => max e.evidence m) 0

/-- A row of the guide response. -/
structure GuideRow where
  ingId : Nat
  food : String
  severity : Int
  affectedDiseases : List String
deriving DecidableEq

/-- Modelled from the spec: the avoid bucket before sorting; an ingredient
is listed as soon as one resolved condition flags it avoid, and the row
carries every resolved condition that triggered the avoid classification. -/
def guideAvoidRows (st : GStore) (resolved : List CondEntity) :
    List GuideRow :=
  (st.ings.filter (fun i => !(condsWith st resolved i .avoid).isEmpty)).map
    (fun i =>
      { ingId := i.id, food := i.name,
        severity := maxEvidence st resolved i .avoid,
        affectedDiseases := (condsWith st resolved i .avoid).map (·.name) })

/-- Modelled from the spec: the beneficial bucket before sorting; avoid
dominates beneficial, so an ingredient appears here only when some resolved
condition favours it and no resolved condition flags it avoid. -/
def guideBenefitRows (st : GStore) (resolved : List CondEntity) :
    List GuideRow :=
  (st.ings.filter (fun i =>
    (condsWith st resolved i .avoid).isEmpty &&
      !(condsWith st resolved i .benefit).isEmpty)).map
    (fun i =>
      { ingId := i.id, food := i.name,
        severity := maxEvidence st resolved i .benefit,
        affectedDiseases := (condsWith st resolved i .benefit).map (·.name) })

/-- Comparator for guide rows: evidence score descending, ties by
case-insensitive ingredient name ascending. -/
def guideCmp (r s : GuideRow) : Int :=
  let d := s.severity - r.severity
  if d = 0 then strCmpCI r.food s.food else d

/-- The guide response envelope. -/
structure GuideResult where
  diseases : List String
  avoid : List GuideRow
  beneficial : List GuideRow
deriving DecidableEq

/-- Modelled from the spec: the guide resolver; resolve the tokens, build
the two reconciled buckets with avoid dominance, sort each, then apply the
filter: avoid and beneficial return their own bucket with the other key
empty, all returns both. -/
def guide (st : GStore) (texts : List String) (filter : String) :
    GuideResult :=
  let resolved := resolvedConditions st texts
  let av := sortCmp guideCmp (guideAvoidRows st resolved)
  let be := sortCmp guideCmp (guideBenefitRows st resolved)
  if filter = "avoid" then
    { diseases := resolved.map (·.name), avoid := av, beneficial := [] }
  else if filter = "beneficial" then
    { diseases := resolved.map (·.name), avoid := [], beneficial := be }
  else
    { diseases := resolved.map (·.name), avoid := av, beneficial := be }

/-- Witness store for the guide resolver: Gout flags Spinach avoid, Anemia
flags it beneficial. -/
def exCondGout : CondEntity := ⟨1, "Gout", ["podagra"]⟩

def exCondAnemia : CondEntity := ⟨2, "Anemia", []⟩

def exIng : IngEntity := ⟨10, "Spinach"⟩

def exStore : GStore :=
  { conds := [exCondGout, exCondAnemia],
    ings := [exIng],
    edges := [⟨1, 10, .avoid, 4⟩, ⟨2, 10, .benefit, 3⟩] }

/-- Admissible state of the first interaction table variant: the same pair
with the two different labels. -/
def exV1Table : List InteractionRowV1 :=
  [⟨.INGREDIENT, 1, .CONDITION, 2, some "avoid", none⟩,
   ⟨.INGREDIENT, 1, .CONDITION, 2, some "benefit", none⟩]

/-- Admissible state of the evidence-bearing interaction table. -/
def exV2Table : List InteractionRowV2 :=
  [⟨.CONDITION, 1, .INGREDIENT, 2, some "avoid", none, 5⟩]

/-- Admissible state of the source table with two distinct non-null urls. -/
def exSources : List SourceRow :=
  [⟨"NIH fact sheet", some "https://a.example", some "NIH", some 2001⟩,
   ⟨"Harvard page", some "https://b.example", none, none⟩]

/-- A 404 response carrying a message envelope. -/
def exFailResponse : FetchResponse :=
  ⟨false, 404, some (some "Disease not found"), none⟩

/-- Guide response used to instantiate the filter dispatch. -/
def exGuideC4 : DiseaseGuide :=
  { diseases := ["anemia"],
    avoid := some [{ food := some "coffee", ingredient := none,
                     reason := "iron absorption", severity := some 4,
                     affectedDiseases := some ["anemia"], sources := none }],
    beneficial := some [{ food := some "spinach", ingredient := none,
                          reason := "iron", severity := some 5,
                          affectedDiseases := some ["anemia"],
                          sources := none }] }

/-- Beneficial bucket input used to exhibit the name-only sorting variant:
apple has severity 1, banana severity 5, so severity-descending order would
put banana first, while name order puts apple first. -/
def itemApple : DiseaseItem :=
  { food := some "apple", ingredient := none, reason := "r1",
    severity := some 1, affectedDiseases := none, sources := none }

def itemBanana : DiseaseItem :=
  { food := some "banana", ingredient := none, reason := "r2",
    severity := some 5, affectedDiseases := none, sources := none }

def exGuideC3 : DiseaseGuide :=
  { diseases := ["gout"], avoid := some [],
    beneficial := some [itemApple, itemBanana] }

/-! ## Theorems -/

theorem insertCmp_perm (cmp : α → α → Int) (x : α) (l : List α) :
    (insertCmp cmp x l).Perm (x :: l) := by
  induction l with
  | nil => simp [insertCmp]
  | cons y ys ih =>
      simp only [insertCmp]
      by_cases h : cmp x y < 0
      · simp [h]
      · simp only [h, if_neg, if_false]
        exact (ih.cons y).trans (List.Perm.swap x y ys)

theorem sortCmp_perm (cmp : α → α → Int) (l : List α) :
    (sortCmp cmp l).Perm l := by
  induction l with
  | nil => simp [sortCmp]
  | cons x xs ih =>
      exact (insertCmp_perm cmp x (sortCmp cmp xs)).trans (ih.cons x)

theorem mem_sortCmp (cmp : α → α → Int) (l : List α) (a : α) :
    a ∈ sortCmp cmp l ↔ a ∈ l :=
  (sortCmp_perm cmp l).mem_iff

theorem mem_insertCmp (cmp : α → α → Int) (x : α) (l : List α) (a : α) :
    a ∈ insertCmp cmp x l ↔ a = x ∨ a ∈ l := by
  rw [(insertCmp_perm cmp x l).mem_iff, List.mem_cons]

theorem pairwise_insertCmp (cmp : α → α → Int) (R : α → α → Prop)
    (h1 : ∀ a b, cmp a b < 0 → R a b)
    (h2 : ∀ a b, ¬ cmp a b < 0 → R b a)
    (htrans : ∀ a b c, R a b → R b c → R a c)
    (x : α) (l : List α) (hl : l.Pairwise R) :
    (insertCmp cmp x l).Pairwise R := by
  induction l with
  | nil => simp [insertCmp]
  | cons y ys ih =>
      rcases List.pairwise_cons.mp hl with ⟨hy, hys⟩
      simp only [insertCmp]
      by_cases h : cmp x y < 0
      · simp only [h, if_pos]
        refine List.pairwise_cons.mpr ⟨?_, hl⟩
        intro z hz
        rcases List.mem_cons.mp hz with rfl | hz
        · exact h1 _ _ h
        · exact htrans _ _ _ (h1 _ _ h) (hy z hz)
      · simp only [h, if_neg, if_false]
        refine List.pairwise_cons.mpr ⟨?_, ih hys⟩
        intro z hz
        rcases (mem_insertCmp cmp x ys z).mp hz with rfl | hz
        · exact h2 _ _ h
        · exact hy z hz

theorem pairwise_sortCmp (cmp : α → α → Int) (R : α → α → Prop)
    (h1 : ∀ a b, cmp a b < 0 → R a b)
    (h2 : ∀ a b, ¬ cmp a b < 0 → R b a)
    (htrans : ∀ a b c, R a b → R b c → R a c)
    (l : List α) : (sortCmp cmp l).Pairwise R := by
  induction l with
  | nil => simp [sortCmp]
  | cons x xs ih =>
      exact pairwise_insertCmp cmp R h1 h2 htrans x (sortCmp cmp xs) ih

/-! ## Client data types (app/wellness.tsx, app/pair.tsx) -/

theorem dedupeLoop_eq (ps : List String) :
    ∀ (seen : List (List Char)) (acc : List String),
      dedupeLoop seen acc ps =
        acc.reverse ++
          keepFirstsCI (ps.filter (fun p => !(seen.contains (lowerKey p)))) := by
  induction ps with
  | nil =>
      intro seen acc
      simp [dedupeLoop, keepFirstsCI]
  | cons p ps ih =>
      intro seen acc
      simp only [dedupeLoop]
      cases hc : seen.contains (lowerKey p) with
      | true =>
          simp only [hc, if_pos, List.filter_cons, Bool.not_true,
            Bool.false_eq_true, if_false]
          exact ih seen acc
      | false =>
          simp only [hc, Bool.false_eq_true, if_false, List.filter_cons,
            Bool.not_false, if_true]
          rw [ih (lowerKey p :: seen) (p :: acc)]
          rw [keepFirstsCI]
          have hfilter :
              ps.filter (fun u => !((lowerKey p :: seen).contains (lowerKey u)))
                = (ps.filter (fun u => !(seen.contains (lowerKey u)))).filter
                    (fun u => !(lowerKey u == lowerKey p)) := by
            rw [List.filter_filter]
            refine List.filter_congr ?_
            intro u _
            simp only [List.contains_cons, Bool.not_or]
          rw [hfilter]
          simp

theorem keepFirstsCI_sublist (l : List String) : (keepFirstsCI l).Sublist l := by
  induction l using keepFirstsCI.induct with
  | case1 => simp [keepFirstsCI]
  | case2 t ts ih =>
      rw [keepFirstsCI]
      exact (ih.trans (List.filter_sublist ts)).cons₂ t

theorem keepFirstsCI_pairwise (l : List String) :
    (keepFirstsCI l).Pairwise (fun a b => lowerKey a ≠ lowerKey b) := by
  induction l using keepFirstsCI.induct with
  | case1 => simp [keepFirstsCI]
  | case2 t ts ih =>
      rw [keepFirstsCI]
      refine List.pairwise_cons.mpr ⟨?_, ih⟩
      intro b hb
      have hb2 : b ∈ ts.filter (fun u => !(lowerKey u == lowerKey t)) :=
        (keepFirstsCI_sublist _).mem hb
      have hne := (List.mem_filter.mp hb2).2
      simp only [Bool.not_eq_true', beq_eq_false_iff_ne, ne_eq] at hne
      exact fun h => hne h.symm

/-- C2: parseDiseases splits its input on commas and whitespace, trims each
token, drops empty tokens, and removes case-insensitive duplicates keeping
only the first occurrence, preserving first-seen order: it equals the
specification-side keepFirstsCI applied to the split/trim/filter token
pipeline, and consequently the output is a subsequence of that token list,
pairwise distinct under the case-insensitive key, with no empty token. -/
theorem parseDiseases_spec (input : String) :
    parseDiseases input = keepFirstsCI (parseParts input) ∧
    (parseDiseases input).Sublist (parseParts input) ∧
    (parseDiseases input).Pairwise (fun a b => lowerKey a ≠ lowerKey b) ∧
    ∀ s ∈ parseDiseases input, jsEmpty s = false := by
  have he : parseDiseases input = keepFirstsCI (parseParts input) := by
    unfold parseDiseases
    rw [dedupeLoop_eq]
    simp
  refine ⟨he, ?_, ?_, ?_⟩
  · rw [he]
    exact keepFirstsCI_sublist _
  · rw [he]
    exact keepFirstsCI_pairwise _
  · intro s hs
    rw [he] at hs
    have hs2 : s ∈ parseParts input := (keepFirstsCI_sublist _).mem hs
    have := (List.mem_filter.mp hs2).2
    simpa using this

theorem strCmpCI_lt_iff (a b : String) :
    strCmpCI a b < 0 ↔ nameKey a < nameKey b := by
  unfold strCmpCI
  by_cases h1 : nameKey a < nameKey b
  · simp [h1]
  · by_cases h2 : nameKey b < nameKey a <;> simp [h1, h2]

theorem bySeverity_lt {a b : DiseaseItem} (h : bySeverity a b < 0) :
    sevOf b < sevOf a ∨
      (sevOf a = sevOf b ∧ nameKey (nameOf a) ≤ nameKey (nameOf b)) := by
  unfold bySeverity at h
  by_cases hd : sevOf b - sevOf a = 0
  · right
    refine ⟨(sub_eq_zero.mp hd).symm, ?_⟩
    simp only [hd, if_pos] at h
    exact le_of_lt ((strCmpCI_lt_iff _ _).mp h)
  · left
    simp only [hd, if_neg, if_false] at h
    omega

theorem bySeverity_not_lt {a b : DiseaseItem} (h : ¬ bySeverity a b < 0) :
    sevOf a < sevOf b ∨
      (sevOf b = sevOf a ∧ nameKey (nameOf b) ≤ nameKey (nameOf a)) := by
  unfold bySeverity at h
  by_cases hd : sevOf b - sevOf a = 0
  · right
    refine ⟨sub_eq_zero.mp hd, ?_⟩
    simp only [hd, if_pos] at h
    exact le_of_not_lt (fun hlt => h ((strCmpCI_lt_iff _ _).mpr hlt))
  · left
    simp only [hd, if_neg, if_false] at h
    omega

theorem rowKeyLe_trans (a b c : Row) (hab : rowKeyLe a b) (hbc : rowKeyLe b c) :
    rowKeyLe a c := by
  unfold rowKeyLe at *
  rcases hab with h1 | ⟨e1, n1⟩ <;> rcases hbc with h2 | ⟨e2, n2⟩
  · exact Or.inl (lt_trans h2 h1)
  · exact Or.inl (e2 ▸ h1)
  · exact Or.inl (e1 ▸ h2)
  · exact Or.inr ⟨e1.trans e2, n1.trans n2⟩

theorem rowCmp_le_key {a b : Row}
    (h : bySeverity a.toDiseaseItem b.toDiseaseItem < 0) : rowKeyLe a b := by
  unfold rowKeyLe
  rcases bySeverity_lt h with h1 | h2
  · exact Or.inl h1
  · exact Or.inr h2

theorem rowCmp_not_lt_key {a b : Row}
    (h : ¬ bySeverity a.toDiseaseItem b.toDiseaseItem < 0) : rowKeyLe b a := by
  unfold rowKeyLe
  rcases bySeverity_not_lt h with h1 | h2
  · exact Or.inl h1
  · exact Or.inr h2

/-- Sorting a tagged bucket with the bySeverity comparator yields a list
ordered by severity descending then case-insensitive name ascending. -/
theorem sorted_bucket (l : List Row) :
    (sortCmp (fun a b => bySeverity a.toDiseaseItem b.toDiseaseItem) l).Pairwise
      rowKeyLe :=
  pairwise_sortCmp _ rowKeyLe (fun _ _ h => rowCmp_le_key h)
    (fun _ _ h => rowCmp_not_lt_key h) rowKeyLe_trans l

/-- C3: within each bucket, the severity-sorting rowsFromResult produces rows
ordered by evidence score (severity) descending, with ties broken by the
case-insensitive display name ascending; the benefit and avoid outputs are
permutations of the tagged buckets, and the all/null filters return the
beneficial bucket followed by the avoid bucket. Being a pure function of the
response, the ordering is deterministic. This is the severity-sorting variant
(app/wellness.tsx lines 1140-1154, pair screen lines 854-871); the name-only
variant at lines 457-466 violates the severity ordering, see the
counterexample theorem. -/
theorem rowsFromResult_bucket_ordering (res : DiseaseGuide) :
    (rowsFromResult res (some .benefit)).Pairwise rowKeyLe ∧
    (rowsFromResult res (some .avoid)).Pairwise rowKeyLe ∧
    (rowsFromResult res (some .benefit)).Perm
      ((res.beneficial.getD []).map (toRow .good)) ∧
    (rowsFromResult res (some .avoid)).Perm
      ((res.avoid.getD []).map (toRow .bad)) ∧
    rowsFromResult res (some .all) =
      rowsFromResult res (some .benefit) ++ rowsFromResult res (some .avoid) ∧
    rowsFromResult res none = rowsFromResult res (some .all) := by
  refine ⟨sorted_bucket _, sorted_bucket _, sortCmp_perm _ _, sortCmp_perm _ _,
    rfl, rfl⟩

/-- C4: the filter dispatch of rowsFromResult. The avoid filter yields
exactly the avoid bucket rows (all tagged bad), the benefit filter exactly
the beneficial bucket rows (all tagged good), and the all filter yields the
beneficial rows first followed by the avoid rows. -/
theorem avoid_rows_kind (res : DiseaseGuide) :
    ∀ r ∈ rowsFromResult res (some .avoid), r.kind = .bad := by
  intro r hr
  rw [show rowsFromResult res (some .avoid)
      = sortCmp (fun a b => bySeverity a.toDiseaseItem b.toDiseaseItem)
          ((res.avoid.getD []).map (toRow .bad)) from rfl,
    mem_sortCmp] at hr
  rcases List.mem_map.mp hr with ⟨x, _, rfl⟩
  rfl

theorem benefit_rows_kind (res : DiseaseGuide) :
    ∀ r ∈ rowsFromResult res (some .benefit), r.kind = .good := by
  intro r hr
  rw [show rowsFromResult res (some .benefit)
      = sortCmp (fun a b => bySeverity a.toDiseaseItem b.toDiseaseItem)
          ((res.beneficial.getD []).map (toRow .good)) from rfl,
    mem_sortCmp] at hr
  rcases List.mem_map.mp hr with ⟨x, _, rfl⟩
  rfl

/-- C4: the filter dispatch of rowsFromResult. The avoid filter yields
exactly the avoid bucket rows (all tagged bad), the benefit filter exactly
the beneficial bucket rows (all tagged good), and the all filter yields the
beneficial rows first followed by the avoid rows. -/
theorem rowsFromResult_filter_dispatch (res : DiseaseGuide) :
    (∀ r ∈ rowsFromResult res (some .avoid), r.kind = .bad) ∧
    (∀ r ∈ rowsFromResult res (some .benefit), r.kind = .good) ∧
    (rowsFromResult res (some .avoid)).Perm
      ((res.avoid.getD []).map (toRow .bad)) ∧
    (rowsFromResult res (some .benefit)).Perm
      ((res.beneficial.getD []).map (toRow .good)) ∧
    rowsFromResult res (some .all) =
      rowsFromResult res (some .benefit) ++ rowsFromResult res (some .avoid) :=
  ⟨avoid_rows_kind res, benefit_rows_kind res, sortCmp_perm _ _,
    sortCmp_perm _ _, rfl⟩

/-- C5: filter round-trip. Selecting the good-tagged rows out of the all
output returns exactly the benefit-filtered output, selecting the bad-tagged
rows returns exactly the avoid-filtered output, so the all output is the
union of the two separate calls. -/
theorem rowsFromResult_union_roundtrip (res : DiseaseGuide) :
    (rowsFromResult res (some .all)).filter (fun r => r.kind == Kind.good) =
      rowsFromResult res (some .benefit) ∧
    (rowsFromResult res (some .all)).filter (fun r => r.kind == Kind.bad) =
      rowsFromResult res (some .avoid) ∧
    rowsFromResult res (some .all) =
      rowsFromResult res (some .benefit) ++ rowsFromResult res (some .avoid) := by
  have hall : rowsFromResult res (some .all) =
      rowsFromResult res (some .benefit) ++ rowsFromResult res (some .avoid) := rfl
  have hgood : (rowsFromResult res (some .benefit)).filter
      (fun r => r.kind == Kind.good) = rowsFromResult res (some .benefit) :=
    List.filter_eq_self.mpr (fun a ha => by
      simp [benefit_rows_kind res a ha])
  have hgoodnil : (rowsFromResult res (some .avoid)).filter
      (fun r => r.kind == Kind.good) = [] :=
    List.filter_eq_nil_iff.mpr (fun a ha => by
      simp [avoid_rows_kind res a ha])
  have hbad : (rowsFromResult res (some .avoid)).filter
      (fun r => r.kind == Kind.bad) = rowsFromResult res (some .avoid) :=
    List.filter_eq_self.mpr (fun a ha => by
      simp [avoid_rows_kind res a ha])
  have hbadnil : (rowsFromResult res (some .benefit)).filter
      (fun r => r.kind == Kind.bad) = [] :=
    List.filter_eq_nil_iff.mpr (fun a ha => by
      simp [benefit_rows_kind res a ha])
  refine ⟨?_, ?_, hall⟩
  · rw [hall, List.filter_append, hgood, hgoodnil, List.append_nil]
  · rw [hall, List.filter_append, hbad, hbadnil, List.nil_append]

/-! ## apiFilter (app/wellness.tsx lines 113-114 and 823-824, pair screen
lines 589-590) -/

/-- C10: every filter value the client sends lies in the closed enumeration
all/avoid/beneficial; benefit maps to beneficial, an unset filter maps to
all, and the other values pass through unchanged, so the engine branch for an
invalid filter is unreachable from this client. -/
theorem apiFilter_closed_enum :
    (∀ f, apiFilter f ∈ (["all", "avoid", "beneficial"] : List String)) ∧
    apiFilter (some .benefit) = "beneficial" ∧
    apiFilter none = "all" ∧
    apiFilter (some .avoid) = "avoid" ∧
    apiFilter (some .all) = "all" := by
  refine ⟨?_, rfl, rfl, rfl, rfl⟩
  intro f
  rcases f with _ | f
  · decide
  · cases f <;> decide

/-! ## onSearch response handling (app/wellness.tsx lines 151-154 and
863-867, pair screen lines 613-617) -/

/-- C7 counterexample: a non-2xx response whose body carries the message
field present but equal to the empty string is not surfaced; the client
shows the generic message instead, because the JS or-expression treats the
empty string as falsy. -/
theorem onSearch_empty_message_not_surfaced :
    onSearchOutcome ⟨false, 500, some (some ""), none⟩
      = (none, some "Request failed (500)") ∧
    (onSearchOutcome ⟨false, 500, some (some ""), none⟩).2 ≠ some "" := by
  constructor
  · rfl
  · decide

/-- C7 (amended): on every non-2xx response the request terminates with no
result retained, a present non-empty message is surfaced verbatim, and an
absent body, an unparseable body, a body without message, or a body with an
empty message all fall back to the generic Request failed (status) text. -/
theorem onSearch_failure_behavior (res : FetchResponse)
    (h : res.ok = false) :
    (onSearchOutcome res).1 = none ∧
    (∀ m, res.errBody = some (some m) → jsEmpty m = false →
      (onSearchOutcome res).2 = some m) ∧
    ((res.errBody = none ∨ res.errBody = some none ∨
        (∃ m, res.errBody = some (some m) ∧ jsEmpty m = true)) →
      (onSearchOutcome res).2 =
        some ("Request failed (" ++ toString res.status ++ ")")) := by
  simp only [onSearchOutcome, h, Bool.false_eq_true, if_false]
  refine ⟨by simp, ?_, ?_⟩
  · intro m hm hne
    simp [failureMessage, hm, jsOrStr, hne]
  · rintro (hb | hb | ⟨m, hb, hme⟩)
    · simp [failureMessage, hb, jsOrStr]
    · simp [failureMessage, hb, jsOrStr]
    · simp [failureMessage, hb, jsOrStr, hme]

/-! ## Relational constraints (db/migration/V2__create_tables.sql)

The file contains two variants of the interaction table: the first (lines
51-63) declares the uq_interaction unique constraint and the itype check but
has no evidence column; the second (lines 157-169) adds the evidence column
with its range check and foreign key but omits both the unique constraint
and the itype check. -/

/-- C6 counterexample: the evidence-bearing interaction table variant admits
a state holding the same (a_type, a_id, b_type, b_id, itype) tuple twice, so
duplicate claims are not prevented there. -/
theorem interaction_v2_allows_duplicate_claims :
    interactionTableOkV2 evidenceLevelSeed [dupInteraction, dupInteraction]
      = true ∧
    ¬ ([dupInteraction, dupInteraction].Pairwise
        (fun r s => interactionKeyV2 r ≠ interactionKeyV2 s)) := by
  constructor
  · decide
  · decide

theorem uqConflict_of_shared_key (r s : InteractionRowV1)
    (h : r.a_type = s.a_type ∧ r.a_id = s.a_id ∧ r.b_type = s.b_type ∧
      r.b_id = s.b_id ∧ ∃ x, r.itype = some x ∧ s.itype = some x) :
    uqConflict r s = true := by
  obtain ⟨h1, h2, h3, h4, x, hx, hy⟩ := h
  simp [uqConflict, h1, h2, h3, h4, hx, hy]

theorem noUqConflicts_pairwise (t : List InteractionRowV1)
    (h : noUqConflicts t = true) :
    t.Pairwise (fun r s => uqConflict r s = false) := by
  induction t with
  | nil => exact List.Pairwise.nil
  | cons r rs ih =>
      rw [noUqConflicts, Bool.and_eq_true] at h
      refine List.pairwise_cons.mpr ⟨?_, ih h.2⟩
      intro s hs
      have := List.all_eq_true.mp h.1 s hs
      simpa using this

/-- C6 (amended): under the first interaction table variant, which declares
uq_interaction, no two rows of an admissible state agree on the whole tuple
(a_type, a_id, b_type, b_id, itype) with a non-null label: the same ordered
entity pair never carries the same label twice. The second variant, the one
carrying the evidence column, omits the constraint and admits duplicates. -/
theorem interaction_v1_key_unique (t : List InteractionRowV1)
    (h : interactionTableOkV1 t = true) :
    t.Pairwise (fun r s =>
      ¬ (r.a_type = s.a_type ∧ r.a_id = s.a_id ∧ r.b_type = s.b_type ∧
          r.b_id = s.b_id ∧ ∃ x, r.itype = some x ∧ s.itype = some x)) := by
  rw [interactionTableOkV1, Bool.and_eq_true] at h
  refine (noUqConflicts_pairwise t h.2).imp ?_
  intro r s hfalse hkey
  rw [uqConflict_of_shared_key r s hkey] at hfalse
  exact absurd hfalse (by simp)

/-- C8: in an admissible state of the evidence-bearing interaction table,
every row carries an evidence score between 0 and 5 matching the score of a
row of the evidence_level table; the CHECK constraint makes a value outside
the range unstorable. -/
theorem interaction_evidence_range (levels : List EvidenceLevelRow)
    (t : List InteractionRowV2) (h : interactionTableOkV2 levels t = true) :
    ∀ r ∈ t, 0 ≤ r.evidence ∧ r.evidence ≤ 5 ∧
      ∃ lv ∈ levels, lv.score = r.evidence := by
  intro r hr
  have hrow := List.all_eq_true.mp h r hr
  rw [Bool.and_eq_true, Bool.and_eq_true] at hrow
  obtain ⟨⟨h0, h5⟩, hfk⟩ := hrow
  refine ⟨of_decide_eq_true h0, of_decide_eq_true h5, ?_⟩
  obtain ⟨lv, hlv, hbeq⟩ := List.any_eq_true.mp hfk
  exact ⟨lv, hlv, eq_of_beq hbeq⟩

/-- C9: in an admissible state of the source table, any two distinct rows
whose urls are both non-null carry different urls, while several rows with a
NULL url can coexist. -/
theorem source_urls_unique (t : List SourceRow)
    (h : sourceTableOk t = true) :
    t.Pairwise (fun r s => ∀ u, r.url = some u → s.url ≠ some u) ∧
    sourceTableOk twoNullUrlSources = true := by
  rw [sourceTableOk, Bool.and_eq_true] at h
  refine ⟨?_, by decide⟩
  have huniq := h.1
  clear h
  induction t with
  | nil => exact List.Pairwise.nil
  | cons r rs ih =>
      rw [urlsUniq, Bool.and_eq_true] at huniq
      refine List.pairwise_cons.mpr ⟨?_, ih huniq.2⟩
      intro s hs u hru hsu
      have hok := List.all_eq_true.mp huniq.1 s hs
      rw [urlNoConflict, hru, hsu] at hok
      simp at hok

/-! ## Condition guide resolver

The resolver runs in the REST backend, which is not part of the provided
sources; the client only posts the token list and filter to
/api/diseases/guide. The definitions below are therefore modelled from the
specification (sections 4.1, 4.5 and 9). -/

theorem hasEdge_congr_id (st : GStore) (c : CondEntity) (i j : IngEntity)
    (t : IType) (h : j.id = i.id) : hasEdge st c j t = hasEdge st c i t := by
  simp [hasEdge, h]

/-- C1: avoid dominates beneficial across the resolved condition set. When
one resolved condition flags an ingredient avoid and another flags it
beneficial, the all-filter guide places the ingredient only in the avoid
bucket - no beneficial row carries its id - and its avoid row lists every
resolved condition that produced the avoid classification. -/
theorem guide_avoid_dominates (st : GStore) (texts : List String)
    (i : IngEntity) (cA cB : CondEntity)
    (hi : i ∈ st.ings)
    (hA : cA ∈ resolvedConditions st texts)
    (_hB : cB ∈ resolvedConditions st texts)
    (hAv : hasEdge st cA i .avoid = true)
    (_hBe : hasEdge st cB i .benefit = true) :
    (∀ r ∈ (guide st texts "all").beneficial, r.ingId ≠ i.id) ∧
    (∃ r ∈ (guide st texts "all").avoid, r.ingId = i.id ∧
      ∀ c ∈ resolvedConditions st texts, hasEdge st c i .avoid = true →
        c.name ∈ r.affectedDiseases) := by
  have hgall : guide st texts "all" =
      { diseases := (resolvedConditions st texts).map (·.name),
        avoid := sortCmp guideCmp
          (guideAvoidRows st (resolvedConditions st texts)),
        beneficial := sortCmp guideCmp
          (guideBenefitRows st (resolvedConditions st texts)) } := by
    simp [guide]
  constructor
  · intro r hr hrid
    rw [hgall] at hr
    simp only at hr
    rw [mem_sortCmp] at hr
    rcases List.mem_map.mp hr with ⟨j, hjmem, hj⟩
    have hjid : j.id = i.id := by rw [← hj] at hrid; exact hrid
    have hfilt := (List.mem_filter.mp hjmem).2
    rw [Bool.and_eq_true] at hfilt
    have hmemA : cA ∈ condsWith st (resolvedConditions st texts) j .avoid :=
      List.mem_filter.mpr ⟨hA, by rw [hasEdge_congr_id st cA i j .avoid hjid]
                                  exact hAv⟩
    rw [List.isEmpty_iff] at hfilt
    exact absurd hmemA (by rw [hfilt.1]; exact List.not_mem_nil cA)
  · have hmemA : cA ∈ condsWith st (resolvedConditions st texts) i .avoid :=
      List.mem_filter.mpr ⟨hA, hAv⟩
    have hne : (condsWith st (resolvedConditions st texts) i .avoid).isEmpty
        = false := by
      cases hh : (condsWith st (resolvedConditions st texts) i .avoid).isEmpty
      · rfl
      · rw [List.isEmpty_iff] at hh
        exact absurd hmemA (by rw [hh]; exact List.not_mem_nil cA)
    refine ⟨{ ingId := i.id, food := i.name,
              severity := maxEvidence st (resolvedConditions st texts) i .avoid,
              affectedDiseases :=
                (condsWith st (resolvedConditions st texts) i .avoid).map
                  (·.name) }, ?_, rfl, ?_⟩
    · rw [hgall]
      simp only
      rw [mem_sortCmp]
      exact List.mem_map.mpr
        ⟨i, List.mem_filter.mpr ⟨hi, by rw [hne]; rfl⟩, rfl⟩
    · intro c hc hcav
      exact List.mem_map.mpr
        ⟨c, List.mem_filter.mpr ⟨hc, hcav⟩, rfl⟩

/-! ## Concrete witness data -/

theorem guide_avoid_dominates_witness :
    exIng ∈ exStore.ings ∧
    exCondGout ∈ resolvedConditions exStore ["gout", "anemia"] ∧
    exCondAnemia ∈ resolvedConditions exStore ["gout", "anemia"] ∧
    hasEdge exStore exCondGout exIng .avoid = true ∧
    hasEdge exStore exCondAnemia exIng .benefit = true ∧
    ((∀ r ∈ (guide exStore ["gout", "anemia"] "all").beneficial,
        r.ingId ≠ exIng.id) ∧
      (∃ r ∈ (guide exStore ["gout", "anemia"] "all").avoid,
        r.ingId = exIng.id ∧
        ∀ c ∈ resolvedConditions exStore ["gout", "anemia"],
          hasEdge exStore c exIng .avoid = true →
            c.name ∈ r.affectedDiseases)) :=
  ⟨by decide, by decide, by decide, by decide, by decide,
    guide_avoid_dominates exStore ["gout", "anemia"] exIng exCondGout
      exCondAnemia (by decide) (by decide) (by decide) (by decide)
      (by decide)⟩

theorem interaction_v1_key_unique_witness :
    interactionTableOkV1 exV1Table = true ∧
    exV1Table.Pairwise (fun r s =>
      ¬ (r.a_type = s.a_type ∧ r.a_id = s.a_id ∧ r.b_type = s.b_type ∧
          r.b_id = s.b_id ∧ ∃ x, r.itype = some x ∧ s.itype = some x)) :=
  ⟨by decide, interaction_v1_key_unique exV1Table (by decide)⟩

theorem interaction_evidence_range_witness :
    interactionTableOkV2 evidenceLevelSeed exV2Table = true ∧
    ∀ r ∈ exV2Table, 0 ≤ r.evidence ∧ r.evidence ≤ 5 ∧
      ∃ lv ∈ evidenceLevelSeed, lv.score = r.evidence :=
  ⟨by decide,
    interaction_evidence_range evidenceLevelSeed exV2Table (by decide)⟩

theorem source_urls_unique_witness :
    sourceTableOk exSources = true ∧
    (exSources.Pairwise (fun r s => ∀ u, r.url = some u → s.url ≠ some u) ∧
      sourceTableOk twoNullUrlSources = true) :=
  ⟨by decide, source_urls_unique exSources (by decide)⟩

theorem onSearch_failure_behavior_witness :
    exFailResponse.ok = false ∧
    ((onSearchOutcome exFailResponse).1 = none ∧
      (∀ m, exFailResponse.errBody = some (some m) → jsEmpty m = false →
        (onSearchOutcome exFailResponse).2 = some m) ∧
      ((exFailResponse.errBody = none ∨ exFailResponse.errBody = some none ∨
          (∃ m, exFailResponse.errBody = some (some m) ∧ jsEmpty m = true)) →
        (onSearchOutcome exFailResponse).2 =
          some ("Request failed (" ++ toString exFailResponse.status ++ ")"))) :=
  ⟨rfl, onSearch_failure_behavior exFailResponse rfl⟩

theorem parseDiseases_spec_witness :
    parseDiseases "Gout, gout diabetes" = ["Gout", "diabetes"] ∧
    (parseDiseases "Gout, gout diabetes").Pairwise
      (fun a b => lowerKey a ≠ lowerKey b) :=
  ⟨by decide, (parseDiseases_spec "Gout, gout diabetes").2.2.1⟩

theorem rowsFromResult_filter_dispatch_witness :
    (rowsFromResult exGuideC4 (some .avoid)).length = 1 ∧
    ∀ r ∈ rowsFromResult exGuideC4 (some .avoid), r.kind = .bad :=
  ⟨by decide, (rowsFromResult_filter_dispatch exGuideC4).1⟩

/-- C3 counterexample: the name-only rowsFromResult variant of
app/wellness.tsx lines 457-466 orders the beneficial bucket by name alone,
producing severities [1, 5] - not sorted by evidence score descending, so the
claim as stated fails on this variant. -/
theorem rowsFromResult_name_only_not_severity_sorted :
    (rowsFromResultNameOnly exGuideC3 (some .benefit)).map
      (fun r => sevOf r.toDiseaseItem) = [1, 5] ∧
    ¬ (rowsFromResultNameOnly exGuideC3 (some .benefit)).Pairwise
        (fun a b => sevOf b.toDiseaseItem ≤ sevOf a.toDiseaseItem) := by
  constructor
  · rfl
  · decide

end StormHack

